import Mathlib

/-!
# Verification of the `cl` unliteration core (src/cl.go)

Shallow embedding of the literate-to-source transform of `cl.go`:
the line classifier driven by the three prefix constants
(`headerPrefix`, `exportedPrefix`, `internalPrefix` in the Go source),
the per-line writer rules of `unlitHelper`'s scan loop, and the
modification-time staleness check that guards the transform.

Lines are modelled as lists of characters (Go strings of the scanned
lines, without their terminating newline).  File modification times are
modelled as naturals, with `0` playing the role of Go's zero `time.Time`
(the earliest instant that ever occurs; a missing file's stat leaves the
corresponding time variable at this zero value).
-/

set_option autoImplicit false

namespace Cl

/-- A scanned line: Go string contents, without the newline. -/
abbrev Line := List Char

/-- Coerce a Lean string literal to a `Line`. -/
def str (s : String) : Line := s.data

/-- The Go constant `headerPrefix = ">> module "`. -/
def headerMark : Line := ['>', '>', ' ', 'm', 'o', 'd', 'u', 'l', 'e', ' ']

/-- The Go constant `exportedPrefix = ">> "`. -/
def exportedMark : Line := ['>', '>', ' ']

/-- The Go constant `internalPrefix = ">  "` (note the double space). -/
def internalMark : Line := ['>', ' ', ' ']

/-- `strings.HasPrefix(line, m)`: does `line` start with marker `m`? -/
def hasMark : Line → Line → Bool
  | [], _ => true
  | _ :: _, [] => false
  | m :: ms, c :: cs => m == c && hasMark ms cs

/-- `strings.TrimPrefix(line, m)`: drop marker `m` from the front of
`line` when present, otherwise return `line` unchanged. -/
def trimMark (m line : Line) : Line :=
  if hasMark m line then line.drop m.length else line

/-- The four classifications of a literate line (spec §3). -/
inductive LineKind where
  | moduleHeader (code : Line)
  | exported (code : Line)
  | internal (code : Line)
  | plain
deriving DecidableEq

/-- The branch structure of `unlitHelper`'s scan loop: the prefix tests in
source order with their payloads.  Note that the module-header branch of
the Go code trims `exportedPrefix` (`">> "`), not `headerPrefix`. -/
def classify (line : Line) : LineKind :=
  if hasMark headerMark line then .moduleHeader (trimMark exportedMark line)
  else if hasMark exportedMark line then .exported (trimMark exportedMark line)
  else if hasMark internalMark line then .internal (trimMark internalMark line)
  else .plain

/-- The writer calls of one loop iteration, as the lists of lines appended
to the definition stream (`dwriter`) and the implementation stream
(`iwriter`).  `fmt.Fprintln(w, "definition", code)` emits one line
`"definition " ++ code`; `fmt.Fprintln(w)` emits one empty line. -/
def unlitStep (line : Line) : List Line × List Line :=
  match classify line with
  | .moduleHeader code => ([str "definition " ++ code], [str "implementation " ++ code])
  | .exported code => ([code], [code])
  | .internal code => ([[]], [code])
  | .plain => ([[]], [[]])

/-- The whole scan loop: single pass over the input lines, in order,
accumulating the two output streams (definition side, implementation
side). -/
def unlit : List Line → List Line × List Line
  | [] => ([], [])
  | line :: rest =>
    let step := unlitStep line
    let tail := unlit rest
    (step.1 ++ tail.1, step.2 ++ tail.2)

/-- Modification time of an output file in `unlitHelper`: `os.Stat`
leaves the `time.Time` variable at its zero value when the file is
missing. -/
def modTime : Option Nat → Nat
  | none => 0
  | some t => t

/-- The staleness oracle of `unlitHelper`: regenerate unless
`mtime.Before(itime) && mtime.Before(dtime)`, i.e. unless the literate
source's time is strictly earlier than both outputs' times. -/
def needsRegen (mtime itime dtime : Nat) : Bool :=
  !(mtime < itime && mtime < dtime)

/-- A file on disk: its modification time and its contents as lines. -/
structure FileData where
  mtime : Nat
  content : List Line
deriving DecidableEq

/-- The slice of the filesystem one `unlitHelper` call touches: the
literate source (`.lcl`), the implementation output (`.icl`) and the
definition output (`.dcl`) of one module.  `none` means the file does
not exist. -/
structure ModuleFS where
  lcl : Option FileData
  icl : Option FileData
  dcl : Option FileData
deriving DecidableEq

/-- The I/O environment of one `unlitHelper` call: whether each
`os.Open`/`os.Create` succeeds, whether (and after how many delivered
lines) the `bufio.Scanner` stops with a read error, and the clock time
stamped onto written files. -/
structure Env where
  openLclOk : Bool
  createIclOk : Bool
  createDclOk : Bool
  scanBreak : Option Nat
  now : Nat
deriving DecidableEq

/-- How one `unlitHelper` call ends.  `fatal` is `expect` firing
`errorLog.Fatalf`, which aborts the process. -/
inductive Outcome where
  | skippedMissing
  | skippedFresh
  | fatal
  | regenerated
deriving DecidableEq

/-- The lines the scan loop actually consumes: all of them, or — when the
scanner hits a read error after `k` lines — only the first `k`
(`scanner.Scan()` then returns `false` and the loop simply ends; the
error is never checked). -/
def scanned (scanBreak : Option Nat) (lines : List Line) : List Line :=
  match scanBreak with
  | none => lines
  | some k => lines.take k

/-- `unlitHelper` (cl.go, lines 331–395): stat the literate source and
return silently when it is missing; stat the two outputs; skip when the
source is strictly older than both; otherwise open the source and
create (= truncate) the two outputs in that order, aborting on the
first failure, then run the scan loop and flush.  Writes stamp
`env.now` as the modification time. -/
def unlitHelper (env : Env) (fs : ModuleFS) : ModuleFS × Outcome :=
  match fs.lcl with
  | none => (fs, .skippedMissing)
  | some lf =>
    let mtime := lf.mtime
    let itime := modTime (fs.icl.map FileData.mtime)
    let dtime := modTime (fs.dcl.map FileData.mtime)
    if needsRegen mtime itime dtime then
      if !env.openLclOk then (fs, .fatal)
      else if !env.createIclOk then (fs, .fatal)
      else
        let fs₁ := { fs with icl := some ⟨env.now, []⟩ }
        if !env.createDclOk then (fs₁, .fatal)
        else
          let fs₂ := { fs₁ with dcl := some ⟨env.now, []⟩ }
          let out := unlit (scanned env.scanBreak lf.content)
          ({ fs₂ with icl := some ⟨env.now, out.2⟩, dcl := some ⟨env.now, out.1⟩ },
           .regenerated)
    else
      (fs, .skippedFresh)

/-! ## Helper lemmas -/

theorem hasMark_shared (m xs ys : Line) :
    hasMark (m ++ xs) (m ++ ys) = hasMark xs ys := by
  induction m with
  | nil => rfl
  | cons a as ih => simp [hasMark, ih]

theorem hasMark_self_append (m rest : Line) : hasMark m (m ++ rest) = true := by
  have h := hasMark_shared m [] rest
  simpa using h

theorem trimMark_self_append (m rest : Line) : trimMark m (m ++ rest) = rest := by
  simp [trimMark, hasMark_self_append, List.drop_left]

theorem headerMark_eq : headerMark = exportedMark ++ str "module " := by decide

theorem classify_header (rest : Line) :
    classify (headerMark ++ rest) = .moduleHeader (str "module " ++ rest) := by
  have h1 : hasMark headerMark (headerMark ++ rest) = true := hasMark_self_append _ _
  have h2 : trimMark exportedMark (headerMark ++ rest) = str "module " ++ rest := by
    rw [headerMark_eq, List.append_assoc]
    exact trimMark_self_append _ _
  simp [classify, h1, h2]

theorem classify_exported (rest : Line)
    (h : hasMark headerMark (exportedMark ++ rest) = false) :
    classify (exportedMark ++ rest) = .exported rest := by
  simp [classify, h, hasMark_self_append, trimMark_self_append]

theorem not_hasMark_exported_internal (rest : Line) :
    hasMark exportedMark (internalMark ++ rest) = false := by
  simp [exportedMark, internalMark, hasMark]

theorem not_hasMark_header_internal (rest : Line) :
    hasMark headerMark (internalMark ++ rest) = false := by
  simp [headerMark, internalMark, hasMark]

theorem classify_internal (rest : Line) :
    classify (internalMark ++ rest) = .internal rest := by
  simp [classify, not_hasMark_header_internal, not_hasMark_exported_internal,
    hasMark_self_append, trimMark_self_append]

theorem classify_plain (line : Line)
    (h1 : hasMark headerMark line = false)
    (h2 : hasMark exportedMark line = false)
    (h3 : hasMark internalMark line = false) :
    classify line = .plain := by
  simp [classify, h1, h2, h3]

theorem hasMark_header_imp_exported (line : Line)
    (h : hasMark headerMark line = true) : hasMark exportedMark line = true := by
  rcases line with _ | ⟨a, _ | ⟨b, _ | ⟨c, rest⟩⟩⟩ <;>
    simp_all [headerMark, exportedMark, hasMark]
  tauto

theorem unlitStep_length (line : Line) :
    (unlitStep line).1.length = 1 ∧ (unlitStep line).2.length = 1 := by
  cases h : classify line <;> simp [unlitStep, h]

theorem unlit_length (lines : List Line) :
    (unlit lines).1.length = lines.length ∧ (unlit lines).2.length = lines.length := by
  induction lines with
  | nil => simp [unlit]
  | cons line rest ih =>
    simp [unlit, (unlitStep_length line).1, (unlitStep_length line).2, ih.1, ih.2,
      Nat.add_comm]

/-! ## Claims -/

/-- C1: for every literate input of N lines, the transform produces a
definition output and an implementation output of exactly N lines each;
every scanned input line appends exactly one line to each output
stream. -/
theorem unlit_line_count :
    (∀ lines : List Line,
        (unlit lines).1.length = lines.length ∧ (unlit lines).2.length = lines.length) ∧
    (∀ line : Line, (unlitStep line).1.length = 1 ∧ (unlitStep line).2.length = 1) :=
  ⟨unlit_length, unlitStep_length⟩

/-- C2: a line `">> module " ++ name` yields `"definition module " ++ name`
on the definition output and `"implementation module " ++ name` on the
implementation output; in particular `">> module Foo.Bar"` yields
`"definition module Foo.Bar"` and `"implementation module Foo.Bar"`. -/
theorem unlit_module_header :
    (∀ rest : Line, unlitStep (headerMark ++ rest)
        = ([str "definition module " ++ rest], [str "implementation module " ++ rest])) ∧
    unlitStep (str ">> module Foo.Bar")
        = ([str "definition module Foo.Bar"], [str "implementation module Foo.Bar"]) := by
  refine ⟨fun rest => ?_, by decide⟩
  have e1 : (str "definition module " : Line) = str "definition " ++ str "module " := by decide
  have e2 : (str "implementation module " : Line) = str "implementation " ++ str "module " := by
    decide
  simp [unlitStep, classify_header rest, e1, e2, List.append_assoc]

/-- C3: an exported line (`">> "` but not a module header) sends the
payload verbatim to both outputs; an internal line (`">  "`) sends the
payload to the implementation output and a blank to the definition
output; a plain line sends a blank to both. -/
theorem unlit_routing :
    (∀ rest : Line, hasMark headerMark (exportedMark ++ rest) = false →
        unlitStep (exportedMark ++ rest) = ([rest], [rest])) ∧
    (∀ rest : Line, unlitStep (internalMark ++ rest) = ([([] : Line)], [rest])) ∧
    (∀ line : Line, hasMark headerMark line = false → hasMark exportedMark line = false →
        hasMark internalMark line = false →
        unlitStep line = ([([] : Line)], [([] : Line)])) ∧
    unlitStep (str ">> someFn :: Int -> Int")
        = ([str "someFn :: Int -> Int"], [str "someFn :: Int -> Int"]) ∧
    unlitStep (str ">  someFn x = x + 1") = ([([] : Line)], [str "someFn x = x + 1"]) ∧
    unlitStep (str "// just a comment") = ([([] : Line)], [([] : Line)]) := by
  refine ⟨fun rest h => ?_, fun rest => ?_, fun line h1 h2 h3 => ?_,
    by decide, by decide, by decide⟩
  · simp [unlitStep, classify_exported rest h]
  · simp [unlitStep, classify_internal rest]
  · simp [unlitStep, classify_plain line h1 h2 h3]

theorem unlit_routing_witness :
    unlitStep (exportedMark ++ str "someFn") = ([str "someFn"], [str "someFn"]) ∧
    unlitStep (str "// x") = ([([] : Line)], [([] : Line)]) :=
  ⟨unlit_routing.1 (str "someFn") (by decide),
   unlit_routing.2.2.1 (str "// x") (by decide) (by decide) (by decide)⟩

/-- C4: the oracle regenerates unless the source's time is strictly
earlier than both outputs' times; a missing output counts as the
earliest instant `0`, so its absence forces regeneration; equality of
the source time with either output's time forces regeneration; the spec
scenario (source 10, implementation output 20, definition output 5)
regenerates. -/
theorem needsRegen_policy :
    (∀ m i d : Nat, needsRegen m i d = false ↔ (m < i ∧ m < d)) ∧
    (∀ m d : Nat, needsRegen m (modTime none) d = true) ∧
    (∀ m i : Nat, needsRegen m i (modTime none) = true) ∧
    (∀ m d : Nat, needsRegen m m d = true) ∧
    (∀ m i : Nat, needsRegen m i m = true) ∧
    needsRegen 10 20 5 = true := by
  refine ⟨fun m i d => ?_, fun m d => ?_, fun m i => ?_, fun m d => ?_, fun m i => ?_,
    by decide⟩ <;> simp [needsRegen, modTime]

/-- C5 counterexample: for the module-header line `">> module Foo.Bar"`,
the payload passed to the writers is `"module Foo.Bar"` — the line with
only the exported marker `">> "` removed — and not `"Foo.Bar"`, the line
with the full module-header marker removed, contradicting the claim that
the removed text is the full matched marker. -/
theorem classify_payload_cex :
    classify (str ">> module Foo.Bar") = LineKind.moduleHeader (str "module Foo.Bar") ∧
    (str ">> module Foo.Bar").drop headerMark.length = str "Foo.Bar" ∧
    LineKind.moduleHeader (str "module Foo.Bar") ≠ LineKind.moduleHeader (str "Foo.Bar") := by
  decide

/-- C5 (amended): for exported and internal lines the text removed from
the front is exactly the matched marker; for module-header lines the
text removed is the exported marker `">> "` — a proper prefix of the
module-header marker — so the payload keeps the text `"module "`; in
all cases the rest of the line, internal whitespace included, is
preserved. -/
theorem classify_payload :
    (∀ rest : Line,
        classify (headerMark ++ rest)
          = .moduleHeader (trimMark exportedMark (headerMark ++ rest)) ∧
        trimMark exportedMark (headerMark ++ rest) = str "module " ++ rest) ∧
    (∀ rest : Line, hasMark headerMark (exportedMark ++ rest) = false →
        classify (exportedMark ++ rest) = .exported (trimMark exportedMark (exportedMark ++ rest)) ∧
        trimMark exportedMark (exportedMark ++ rest) = rest) ∧
    (∀ rest : Line,
        classify (internalMark ++ rest) = .internal (trimMark internalMark (internalMark ++ rest)) ∧
        trimMark internalMark (internalMark ++ rest) = rest) := by
  have htrim : ∀ rest : Line, trimMark exportedMark (headerMark ++ rest) = str "module " ++ rest := by
    intro rest
    rw [headerMark_eq, List.append_assoc]
    exact trimMark_self_append _ _
  refine ⟨fun rest => ⟨?_, htrim rest⟩, fun rest h => ⟨?_, trimMark_self_append _ _⟩,
    fun rest => ⟨?_, trimMark_self_append _ _⟩⟩
  · rw [classify_header rest, htrim rest]
  · rw [classify_exported rest h, trimMark_self_append]
  · rw [classify_internal rest, trimMark_self_append]

theorem classify_payload_witness :
    classify (exportedMark ++ str "f :: Int")
        = LineKind.exported (trimMark exportedMark (exportedMark ++ str "f :: Int")) ∧
    trimMark exportedMark (exportedMark ++ str "f :: Int") = str "f :: Int" :=
  classify_payload.2.1 (str "f :: Int") (by decide)

/-- C6: classification checks the markers in the precedence order
module-header > exported > internal > plain with the first match
winning (a module-header line also carries the exported marker, yet is
classified as a module header), and every line receives exactly one of
the four classifications. -/
theorem classify_precedence :
    (∀ line : Line, hasMark headerMark line = true → hasMark exportedMark line = true) ∧
    (∀ line : Line, hasMark headerMark line = true →
        classify line = .moduleHeader (trimMark exportedMark line)) ∧
    (∀ line : Line, hasMark headerMark line = false → hasMark exportedMark line = true →
        classify line = .exported (trimMark exportedMark line)) ∧
    (∀ line : Line, hasMark headerMark line = false → hasMark exportedMark line = false →
        hasMark internalMark line = true →
        classify line = .internal (trimMark internalMark line)) ∧
    (∀ line : Line, hasMark headerMark line = false → hasMark exportedMark line = false →
        hasMark internalMark line = false → classify line = .plain) ∧
    (∀ line : Line, (∃ c, classify line = .moduleHeader c) ∨
        (∃ c, classify line = .exported c) ∨ (∃ c, classify line = .internal c) ∨
        classify line = .plain) := by
  refine ⟨hasMark_header_imp_exported, fun line h1 => ?_, fun line h1 h2 => ?_,
    fun line h1 h2 h3 => ?_, classify_plain, fun line => ?_⟩
  · simp [classify, h1]
  · simp [classify, h1, h2]
  · simp [classify, h1, h2, h3]
  · cases h : classify line
    · exact Or.inl ⟨_, rfl⟩
    · exact Or.inr (Or.inl ⟨_, rfl⟩)
    · exact Or.inr (Or.inr (Or.inl ⟨_, rfl⟩))
    · exact Or.inr (Or.inr (Or.inr rfl))

theorem classify_precedence_witness :
    classify (str ">> module X") = LineKind.moduleHeader (trimMark exportedMark (str ">> module X")) ∧
    classify (str "plain") = LineKind.plain :=
  ⟨classify_precedence.2.1 (str ">> module X") (by decide),
   classify_precedence.2.2.2.2.1 (str "plain") (by decide) (by decide) (by decide)⟩

/-- C7 counterexample: with the source at 10 and the definition output
held at 5, raising the implementation output's time from 5 to 20 —
past the source's time — leaves the oracle at "regenerate": the result
does not flip to "skip" as the claim states. -/
theorem needsRegen_flip_cex :
    needsRegen 10 5 5 = true ∧ needsRegen 10 20 5 = true := by decide

/-- C7 (amended): the oracle treats the two output times symmetrically,
and when the OTHER output's time is already strictly later than the
source's, raising one output's time past the source's flips the result
from "regenerate" to "skip", while deleting that output (its time
becomes the earliest instant) flips it back to "regenerate". -/
theorem needsRegen_flip :
    (∀ s a b : Nat, needsRegen s a b = needsRegen s b a) ∧
    (∀ s i iNew d : Nat, i ≤ s → s < iNew → s < d →
        needsRegen s i d = true ∧ needsRegen s iNew d = false ∧
        needsRegen s (modTime none) d = true) := by
  constructor
  · intro s a b
    simp [needsRegen, Bool.and_comm]
  · intro s i iNew d h1 h2 h3
    refine ⟨?_, ?_, ?_⟩ <;> simp [needsRegen, modTime] <;> omega

theorem needsRegen_flip_witness :
    needsRegen 10 10 20 = true ∧ needsRegen 10 30 20 = false ∧
    needsRegen 10 (modTime none) 20 = true :=
  needsRegen_flip.2 10 10 30 20 (by decide) (by decide) (by decide)

/-- C8: a module whose literate source is missing is skipped silently:
no fatal error, no regeneration, and the filesystem slice is returned
untouched. -/
theorem unlitHelper_missing_source (env : Env) (fs : ModuleFS) (h : fs.lcl = none) :
    unlitHelper env fs = (fs, Outcome.skippedMissing) := by
  simp [unlitHelper, h]

theorem unlitHelper_missing_source_witness :
    unlitHelper ⟨true, true, true, none, 5⟩ ⟨none, some ⟨3, []⟩, none⟩
      = (⟨none, some ⟨3, []⟩, none⟩, Outcome.skippedMissing) :=
  unlitHelper_missing_source _ _ rfl

/-- C9 counterexample: on a stale module (source at 10, outputs at 5 and
20), a failure to create the definition output is fatal but leaves the
implementation output freshly truncated (empty, stamped at 30) and
visible, and a scanner failure after one of two lines is not fatal at
all: the call ends in `regenerated` with a one-line (partial)
implementation output. -/
theorem unlitHelper_partial_cex :
    (unlitHelper ⟨true, true, false, none, 30⟩
        ⟨some ⟨10, [str ">> a", str ">> b"]⟩, some ⟨5, [str "old"]⟩, some ⟨20, [str "old"]⟩⟩).2
      = Outcome.fatal ∧
    (unlitHelper ⟨true, true, false, none, 30⟩
        ⟨some ⟨10, [str ">> a", str ">> b"]⟩, some ⟨5, [str "old"]⟩, some ⟨20, [str "old"]⟩⟩).1.icl
      = some ⟨30, []⟩ ∧
    (unlitHelper ⟨true, true, true, some 1, 30⟩
        ⟨some ⟨10, [str ">> a", str ">> b"]⟩, some ⟨5, [str "old"]⟩, some ⟨20, [str "old"]⟩⟩).2
      = Outcome.regenerated ∧
    (unlitHelper ⟨true, true, true, some 1, 30⟩
        ⟨some ⟨10, [str ">> a", str ">> b"]⟩, some ⟨5, [str "old"]⟩, some ⟨20, [str "old"]⟩⟩).1.icl
      = some ⟨30, [str "a"]⟩ := by
  decide

/-- C9 (amended): on a stale module, a failure to open the source or to
create either output is fatal and surfaced; the outputs are created in
truncate mode before the scan and hold the transform's result on
completion — but when creating the definition output fails, the already
truncated implementation output remains visible, and a read failure
midway through the scan is not fatal: the call completes normally with
the transform of only the lines read before the failure. -/
theorem unlitHelper_failure_semantics (env : Env) (fs : ModuleFS) (lf : FileData)
    (hl : fs.lcl = some lf)
    (hr : needsRegen lf.mtime (modTime (fs.icl.map FileData.mtime))
            (modTime (fs.dcl.map FileData.mtime)) = true) :
    (env.openLclOk = false → unlitHelper env fs = (fs, .fatal)) ∧
    (env.openLclOk = true → env.createIclOk = false → unlitHelper env fs = (fs, .fatal)) ∧
    (env.openLclOk = true → env.createIclOk = true → env.createDclOk = false →
        unlitHelper env fs = ({ fs with icl := some ⟨env.now, []⟩ }, .fatal)) ∧
    (env.openLclOk = true → env.createIclOk = true → env.createDclOk = true →
        unlitHelper env fs =
          ({ fs with icl := some ⟨env.now, (unlit (scanned env.scanBreak lf.content)).2⟩,
                     dcl := some ⟨env.now, (unlit (scanned env.scanBreak lf.content)).1⟩ },
           .regenerated)) := by
  refine ⟨fun h1 => ?_, fun h1 h2 => ?_, fun h1 h2 h3 => ?_, fun h1 h2 h3 => ?_⟩
  · simp [unlitHelper, hl, hr, h1]
  · simp [unlitHelper, hl, hr, h1, h2]
  · simp [unlitHelper, hl, hr, h1, h2, h3]
  · simp [unlitHelper, hl, hr, h1, h2, h3]

theorem unlitHelper_failure_semantics_witness :
    unlitHelper ⟨false, true, true, none, 30⟩ ⟨some ⟨10, []⟩, none, none⟩
      = (⟨some ⟨10, []⟩, none, none⟩, Outcome.fatal) :=
  (unlitHelper_failure_semantics ⟨false, true, true, none, 30⟩ ⟨some ⟨10, []⟩, none, none⟩
      ⟨10, []⟩ rfl (by decide)).1 rfl

/-- C10: a line beginning `">> module"` NOT followed by a space (such as
`">> module"` itself or `">> moduleFoo"`) is classified as exported:
both outputs receive the line with only `">> "` removed, so both begin
with `"module"`, and no `definition`/`implementation` keyword is
added. -/
theorem unlit_module_no_space :
    (∀ rest : Line, hasMark (str " ") rest = false →
        unlitStep (str ">> module" ++ rest)
          = ([str "module" ++ rest], [str "module" ++ rest])) ∧
    unlitStep (str ">> module") = ([str "module"], [str "module"]) ∧
    unlitStep (str ">> moduleFoo") = ([str "moduleFoo"], [str "moduleFoo"]) := by
  refine ⟨fun rest h => ?_, by decide, by decide⟩
  have e1 : (headerMark : Line) = str ">> module" ++ str " " := by decide
  have hh : hasMark headerMark (str ">> module" ++ rest) = false := by
    rw [e1, hasMark_shared]
    exact h
  have e2 : (str ">> module" : Line) = exportedMark ++ str "module" := by decide
  rw [e2, List.append_assoc] at hh ⊢
  simp [unlitStep, classify_exported _ hh]

theorem unlit_module_no_space_witness :
    unlitStep (str ">> module" ++ str "Foo")
      = ([str "module" ++ str "Foo"], [str "module" ++ str "Foo"]) :=
  unlit_module_no_space.1 (str "Foo") (by decide)

end Cl
